import Mathlib

/-!
# RNG-Backend: a shallow embedding of the HTTP service and its contract

The development follows the layout of the repository:

* `model/model.go`        : the JSON models (`RNG`, `Average`, `Error`, `Configuration`);
* `util/random.go`        : `Intn`, `RandomFloat64`;
* `util/errorhandling.go` : `ErrorHandler`, `ApiErrorHandler`;
* `main.go`               : the handlers, the API-key middleware and the route table.

Conventions of the embedding.

* The process state is the content of table `RNG`, a list of rows in insertion (rowid) order.
* Everything the environment decides during one request (the clock, the UUID, the two draws
  from `crypto/rand`) is an explicit input, collected in `Inputs`.
* `log.Fatal` is the outcome `Fault.fatal`.
* `float64` values are the rationals they denote; `roundFloat64` is IEEE-754 binary64
  round-to-nearest-even on the finite range.  SQL `AVG` adds the values of a group to a
  binary64 accumulator in table order and divides by the count, rounding at every step.
* Strings are sequences of Unicode characters.  SQLite's `LIKE` reads each operand as
  NUL-terminated text, so only the characters before the first NUL take part in a match.
* Go's `int` is 64 bits wide; products are reduced with `wrapInt64`.
* The RFC3339 text stored in column `timestamp` is represented by the whole second it denotes.
-/

set_option linter.dupNamespace false

namespace RNGBackend

/-! ## Library primitives used by the source -/

/-- Outcome of a computation that cannot continue. `fatal` is `log.Fatal` (the process exits);
`unmodelled` marks a use of a library function outside the fragment embedded here. -/
inductive Fault where
  | fatal
  | unmodelled
deriving DecidableEq

/-- Instant returned by `time.Now()`: whole seconds since the epoch and the nanoseconds
within that second. -/
structure Time where
  sec : Int
  nsec : Nat
deriving DecidableEq

/-- Text of column `timestamp`. `time.RFC3339` renders a UTC instant as
`2006-01-02T15:04:05Z`, with a resolution of one second; the text is represented by the second
it denotes, and the lexicographic order of two such texts is the order of their seconds. -/
abbrev TimestampText := Int

/-- Embedding of `t.Format(time.RFC3339)` for a UTC instant. -/
def Time.Format (t : Time) : TimestampText := t.sec

/-- Embedding of `time.Parse(time.RFC3339, s)` on a text produced by `Time.Format`. -/
def timeParse (s : TimestampText) : Time := ⟨s, 0⟩

/-- ASCII lower-casing of one character (`sqlite3Tolower`, and the ASCII branch of
`unicode.ToLower`). -/
def asciiLower (c : Char) : Char :=
  if 'A' ≤ c ∧ c ≤ 'Z' then Char.ofNat (c.toNat + 32) else c

/-- Embedding of `unicode.ToLower`. ASCII runes are handled by the ASCII branch; every other
rune is looked up in the case table of package `unicode`, the parameter `caseTable`. -/
def toLowerRune (caseTable : Char → Char) (r : Char) : Char :=
  if r.toNat ≤ 0x7F then asciiLower r else caseTable r

/-- Embedding of `strings.ToLower`: every rune is mapped by `unicode.ToLower`. -/
def ToLower (caseTable : Char → Char) (s : String) : String :=
  ⟨s.data.map (toLowerRune caseTable)⟩

/-- Embedding of `crypto/rand.Int(rand.Reader, max)`: the value read from the entropy source,
reduced into `[0, max)`. Every value of that range is returned for some `entropy`. -/
def randInt (max entropy : Nat) : Nat := entropy % max

/-- Decimal rendering of a natural number (`(*big.Int).String`, `strconv.Itoa`). -/
def decimal (n : Nat) : String := ⟨Nat.toDigits 10 n⟩

/-- Operand of a formatting verb: a string, or a slice whose elements are strings
(`[]any` holding strings). -/
inductive Arg where
  | str (s : String)
  | strs (xs : List String)
deriving DecidableEq

/-- What verbs `%s` and `%v` print for an operand: a string as it is, a slice as its elements
separated by one blank between square brackets. -/
def Arg.render : Arg → List Char
  | .str s => s.data
  | .strs xs => '[' :: (" ".intercalate xs).data ++ [']']

/-- Dynamic type of an operand as `reflect.Type.String` prints it. -/
def Arg.typeName : Arg → String
  | .str _ => "string"
  | .strs _ => "[]interface \x7b\x7d"

/-- Text that `fmt` appends for operands no verb consumed. -/
def extraArgs : List Arg → List Char
  | [] => []
  | a :: as =>
    "%!(EXTRA ".data
      ++ (", ".intercalate ((a :: as).map fun x => x.typeName ++ "=" ++ ⟨x.render⟩)).data
      ++ [')']

/-- Formatting loop of `fmt.Sprintf` on the fragment: literal text, `%%`, and the verbs `%s`
and `%v` without flags, width or precision. Any other directive yields `none`. -/
def sprintfLoop : List Char → List Arg → Option (List Char)
  | [], args => some (extraArgs args)
  | [c], args =>
    if c = '%' then some ("%!(NOVERB)".data ++ extraArgs args) else some (c :: extraArgs args)
  | c :: d :: rest, args =>
    if c = '%' then
      if d = '%' then (sprintfLoop rest args).map fun out => '%' :: out
      else if d = 's' ∨ d = 'v' then
        match args with
        | a :: as => (sprintfLoop rest as).map fun out => a.render ++ out
        | [] => (sprintfLoop rest []).map fun out => "%!".data ++ d :: "(MISSING)".data ++ out
      else none
    else (sprintfLoop (d :: rest) args).map fun out => c :: out

/-- Embedding of `fmt.Sprintf(format, args...)` on the fragment of `sprintfLoop`. -/
def Sprintf (format : String) (args : List Arg) : Option String :=
  (sprintfLoop format.data args).map String.mk

/-! ## model/model.go -/

/-- Model `Error`: the JSON error body. -/
structure Error where
  Message : String
  Timestamp : Time
deriving DecidableEq

/-- Model `Configuration`. -/
structure Configuration where
  Port : Int
  Host : String
  APIKey : String
  AllowedOrigins : List String
  AllowAllOrigins : Bool
deriving DecidableEq

/-- Model `RNG`: one generation event. -/
structure RNG where
  ID : String
  User : String
  RNG : ℚ
  Timestamp : Time
deriving DecidableEq

/-- Model `Average`: mean and count of the values of one user. -/
structure Average where
  User : String
  Count : Nat
  Average : ℚ
deriving DecidableEq

/-! ## util/random.go -/

/-- Embedding of `Intn`: `rand.Int` below `max`, converted with `Int64` (exact below `2^63`). -/
def Intn (max entropy : Nat) : Nat := randInt max entropy

/-- Round-to-nearest, ties-to-even, of a rational to an integer. -/
def roundHalfEven (q : ℚ) : ℤ :=
  let f := ⌊q⌋
  let r := q - f
  if r < 1 / 2 then f
  else if 1 / 2 < r then f + 1
  else if f % 2 = 0 then f else f + 1

/-- IEEE-754 binary64 rounding (nearest, ties to even) of a rational in the finite range: the
significand has 53 bits and the exponent of the last place is at least `-1074`. -/
def roundFloat64 (q : ℚ) : ℚ :=
  if q = 0 then 0
  else
    let e : ℤ := max (Int.log 2 |q| - 52) (-1074)
    (roundHalfEven (q / (2 : ℚ) ^ e) : ℚ) * (2 : ℚ) ^ e

/-- Embedding of `RandomFloat64`: `float64(Intn(1<<53)) / (1 << 53)`. The conversion and the
quotient are each rounded to binary64; the constant `1 << 53` converts exactly. -/
def RandomFloat64 (entropy : Nat) : ℚ :=
  roundFloat64 (roundFloat64 (Intn (2 ^ 53) entropy : ℚ) / (2 : ℚ) ^ 53)

/-! ## gin: responses, contexts and handler chains -/

/-- Value handed to `c.JSON`, `c.IndentedJSON` or `c.AbortWithStatusJSON`. -/
inductive Body where
  | text (s : String)
  | error (e : Error)
  | rng (r : RNG)
  | average (a : Average)
  | averages (list : List Average)
  | users (users : List String)
  | rngs (rngs : List RNG)
deriving DecidableEq

/-- Status code and body written to the client. -/
structure Response where
  status : Nat
  body : Body
deriving DecidableEq

/-- What the environment decides while one request is served. -/
structure Inputs where
  /-- Result of `time.Now()`. -/
  now : Time
  /-- Result of `uuid.New().String()`. -/
  uuid : String
  /-- Entropy consumed by `rand.Int(rand.Reader, big.NewInt(9))`. -/
  suffixEntropy : Nat
  /-- Entropy consumed by `Intn(1<<53)`. -/
  floatEntropy : Nat
deriving DecidableEq

/-- The part of `gin.Context` the handlers use. -/
structure Context where
  /-- Value of `c.Request.Header.Get("Authorization")`, empty when the header is absent. -/
  authorization : String
  /-- Value of `c.Param("username")`, empty when the route has no such segment. -/
  username : String
  /-- Query parameter `page`, when present. -/
  page : Option String
  /-- Query parameter `count`, when present. -/
  count : Option String
  inputs : Inputs
  /-- Set by `c.Abort`: the handlers still pending are skipped. -/
  aborted : Bool
  response : Option Response
deriving DecidableEq

/-- Embedding of `c.JSON` and `c.IndentedJSON`. -/
def Context.JSON (c : Context) (status : Nat) (body : Body) : Context :=
  { c with response := some ⟨status, body⟩ }

/-- Embedding of `c.AbortWithStatusJSON`. -/
def Context.AbortWithStatusJSON (c : Context) (status : Nat) (body : Body) : Context :=
  { c with aborted := true, response := some ⟨status, body⟩ }

/-- Row of table `RNG(id, username, rng, timestamp)`. -/
structure Row where
  id : String
  username : String
  rng : ℚ
  timestamp : TimestampText
deriving DecidableEq

/-- Content of table `RNG`, in insertion (rowid) order. -/
abbrev Database := List Row

/-- A gin handler: it reads and updates the context and the database, or ends the process. -/
abbrev HandlerFunc := Context → Database → Except Fault (Context × Database)

/-- Embedding of `(*Context).Next` over a route's handlers: they run in order until one
aborts. -/
def runChain : List HandlerFunc → HandlerFunc
  | [], c, db => .ok (c, db)
  | h :: hs, c, db =>
    if c.aborted then .ok (c, db)
    else
      match h c db with
      | .error f => .error f
      | .ok (c1, db1) => runChain hs c1 db1

/-! ## util/errorhandling.go -/

/-- Embedding of `ApiErrorHandler`. The variadic `params` reaches `fmt.Sprintf` as one operand,
the slice itself. -/
def ApiErrorHandler (c : Context) (status : Nat) (message : String) (params : List String) :
    Except Fault Context :=
  if params.length = 0 then
    .ok (c.AbortWithStatusJSON status (.error ⟨message, c.inputs.now⟩))
  else
    match Sprintf message [Arg.strs params] with
    | some text => .ok (c.AbortWithStatusJSON status (.error ⟨text, c.inputs.now⟩))
    | none => .error .unmodelled

/-! ## SQLite: the statements of `main.go` -/

/-- Matching of SQLite's `LIKE` without `ESCAPE`: `%` stands for any run of characters, `_`
for one character, and any other character matches itself up to ASCII case. -/
def likeMatch : List Char → List Char → Bool
  | [], s => s.isEmpty
  | p :: ps, s =>
    if p = '%' then s.tails.any (likeMatch ps)
    else
      match s with
      | [] => false
      | c :: cs => (p = '_' || asciiLower p == asciiLower c) && likeMatch ps cs

/-- The text `LIKE` reads from an operand (`sqlite3_value_text`): the characters before the
first NUL. -/
def cText (s : String) : List Char :=
  s.data.takeWhile fun c => c ≠ Char.ofNat 0

/-- SQL `text LIKE pattern`, for a pattern within the length limit: both operands are read as
NUL-terminated text. -/
def sqlLike (text pattern : String) : Bool := likeMatch (cText pattern) (cText text)

/-- Limit `SQLITE_MAX_LIKE_PATTERN_LENGTH`: `LIKE` raises the error `LIKE or GLOB pattern too
complex` for a pattern of more than 50000 bytes, whatever the text. -/
def likePatternTooLong (pattern : String) : Bool :=
  decide (50000 < pattern.utf8ByteSize)

/-- Accumulator of SQL `SUM` and `AVG` over floating-point values (`sumStep`): each value is
added to a binary64 sum, in the order of the scan. -/
def sumFloat64 (values : List ℚ) : ℚ :=
  values.foldl (fun acc v => roundFloat64 (acc + v)) 0

/-- SQL `AVG` (`avgFinalize`): `NULL` over no row, otherwise the binary64 quotient of the
accumulated sum by the count. -/
def sqlAvg (values : List ℚ) : Option ℚ :=
  if values.length = 0 then none
  else some (roundFloat64 (sumFloat64 values / values.length))

/-- Row of view `AverageRNG(username, average, count)`. -/
structure AverageRow where
  username : String
  average : Option ℚ
  count : Nat
deriving DecidableEq

/-- Rows of the database whose username is `u`. -/
def rowsOf (db : Database) (u : String) : Database :=
  db.filter fun r => r.username = u

/-- Keys of `GROUP BY username`: the distinct usernames, in the ascending binary order in which
SQLite's sorter emits the groups. Within a group the sorter keeps the rows in table order. -/
def groupKeys (db : Database) : List String :=
  ((db.map Row.username).dedup).insertionSort fun a b => a.data ≤ b.data

/-- First arm of the view: `SELECT username, AVG(rng), COUNT(username) FROM RNG GROUP BY
username`. -/
def groupRows (db : Database) : List AverageRow :=
  (groupKeys db).map fun u =>
    ⟨u, sqlAvg ((rowsOf db u).map Row.rng), (rowsOf db u).length⟩

/-- View `AverageRNG`: the per-user rows, then (`UNION ALL`) the row `'All'` over the whole
table. -/
def AverageRNG (db : Database) : List AverageRow :=
  groupRows db ++ [⟨"All", sqlAvg (db.map Row.rng), db.length⟩]

/-- Statement `INSERT INTO RNG(id, username, rng, timestamp) VALUES(?, ?, ?, ?)`: it fails on
a duplicate primary key, and the caller's `util.ErrorHandler` then ends the process. -/
def insertRNG (db : Database) (row : Row) : Except Fault Database :=
  if row.id ∈ db.map Row.id then .error .fatal else .ok (db ++ [row])

/-- Clause `ORDER BY timestamp DESC`; rows with equal timestamps keep their table order. -/
def orderByTimestampDesc (db : Database) : List Row :=
  db.insertionSort fun a b => b.timestamp ≤ a.timestamp

/-- Clause `LIMIT limit OFFSET offset`: a negative offset counts as zero, a negative limit
as no limit. -/
def limitOffset (rows : List Row) (limit offset : Int) : List Row :=
  let rest := rows.drop offset.toNat
  if limit < 0 then rest else rest.take limit.toNat

/-- Reduction of an integer to Go's 64-bit `int` (two's complement wrap-around). -/
def wrapInt64 (x : Int) : Int := (x + 2 ^ 63) % 2 ^ 64 - 2 ^ 63

/-- Value of a sign and a run of decimal digits. -/
def signedValue (negative : Bool) (digits : List Char) : Int :=
  let n : Nat := digits.foldl (fun acc d => 10 * acc + (d.toNat - 48)) 0
  if negative then -(n : Int) else n

/-- Embedding of `strconv.Atoi`: an optional sign, then one or more decimal digits; the value
has to fit in 64 bits. -/
def Atoi (s : String) : Option Int :=
  let signed : Bool × List Char :=
    match s.data with
    | '-' :: ds => (true, ds)
    | '+' :: ds => (false, ds)
    | ds => (false, ds)
  if signed.2 = [] ∨ ¬ signed.2.all Char.isDigit then none
  else if -(2 : Int) ^ 63 ≤ signedValue signed.1 signed.2
      ∧ signedValue signed.1 signed.2 < 2 ^ 63 then
    some (signedValue signed.1 signed.2)
  else none

/-! ## main.go: handlers -/

/-- Embedding of `Ping`. -/
def Ping : HandlerFunc := fun c db =>
  .ok (c.JSON 200 (.text "Pong"), db)

/-- Username under which `RandomFloat0to1` files the draw: the placeholder `Debug<d>` for an
empty or `undefined` path parameter, the parameter itself otherwise. -/
def generationUsername (caseTable : Char → Char) (c : Context) : String :=
  if c.username.length = 0 ∨ ToLower caseTable c.username = "undefined" then
    "Debug" ++ decimal (randInt 9 c.inputs.suffixEntropy)
  else c.username

/-- Embedding of `RandomFloat0to1`. -/
def RandomFloat0to1 (caseTable : Char → Char) : HandlerFunc := fun c db =>
  let username := generationUsername caseTable c
  if ToLower caseTable username = "all" then
    (ApiErrorHandler c 405 "The username '%s' is reserved." [username]).map fun c1 => (c1, db)
  else
    let result : RNG :=
      { ID := c.inputs.uuid
        User := username
        RNG := RandomFloat64 c.inputs.floatEntropy
        Timestamp := c.inputs.now }
    match insertRNG db ⟨result.ID, result.User, result.RNG, result.Timestamp.Format⟩ with
    | .error f => .error f
    | .ok db1 => .ok (c.JSON 200 (.rng result), db1)

/-- Name `GetUserAverageRNG` looks up: `All` for an empty or `undefined` path parameter. -/
def averageUsername (caseTable : Char → Char) (c : Context) : String :=
  if c.username.length = 0 ∨ ToLower caseTable c.username = "undefined" then "All"
  else c.username

/-- First row of `SELECT username, average, count FROM AverageRNG WHERE username LIKE ?`, if
the statement yields one. The view always holds the row `All`, so `LIKE` is evaluated at least
once, and a pattern over the length limit fails the statement before any row is returned. -/
def queryAverage (db : Database) (pattern : String) : Option AverageRow :=
  if likePatternTooLong pattern then none
  else ((AverageRNG db).filter fun r => sqlLike r.username pattern).head?

/-- Embedding of `GetUserAverageRNG`: `QueryRow(username).Scan` fails when the statement fails,
when there is no row, or when `average` is `NULL`. -/
def GetUserAverageRNG (caseTable : Char → Char) : HandlerFunc := fun c db =>
  let username := averageUsername caseTable c
  match queryAverage db username with
  | some ⟨_, some average, count⟩ =>
    .ok (c.JSON 200 (.average { User := username, Average := average, Count := count }), db)
  | _ =>
    (ApiErrorHandler c 404 "Could not find user '%s'" [username]).map fun c1 => (c1, db)

/-- Loop `for rows.Next()` of `GetAllAveragesRNG`: a `NULL` average fails the scan, which is
fatal. -/
def scanAverages : List AverageRow → Except Fault (List Average)
  | [] => .ok []
  | ⟨username, some average, count⟩ :: rows =>
    match scanAverages rows with
    | .error f => .error f
    | .ok averages => .ok ({ User := username, Average := average, Count := count } :: averages)
  | ⟨_, none, _⟩ :: _ => .error .fatal

/-- Embedding of `GetAllAveragesRNG`:
`SELECT username, average, count FROM AverageRNG WHERE username NOT LIKE 'all'`. The pattern
`all` is within the length limit. -/
def GetAllAveragesRNG : HandlerFunc := fun c db =>
  match scanAverages ((AverageRNG db).filter fun r => !sqlLike r.username "all") with
  | .error f => .error f
  | .ok averages => .ok (c.JSON 200 (.averages averages), db)

/-- Embedding of `GetUsers`: `SELECT username FROM RNG GROUP BY username`. -/
def GetUsers : HandlerFunc := fun c db =>
  .ok (c.JSON 200 (.users (groupKeys db)), db)

/-- Conversion of a table row to model `RNG`, as in the scan loop of `GetGenerationDetails`. -/
def Row.toRNG (r : Row) : RNG :=
  { ID := r.id, User := r.username, RNG := r.rng, Timestamp := timeParse r.timestamp }

/-- Embedding of `GetGenerationDetails`:
`SELECT id, username, rng, timestamp FROM RNG ORDER BY timestamp DESC LIMIT ? OFFSET ?` with
arguments `count` and `count*page`. -/
def GetGenerationDetails : HandlerFunc := fun c db =>
  let pageStr := c.page.getD "1"
  match Atoi pageStr with
  | none =>
    (ApiErrorHandler c 400 "Conversion failed for page '%s'" [pageStr]).map fun c1 => (c1, db)
  | some page0 =>
    let page := wrapInt64 (page0 - 1)
    let countStr := c.count.getD "15"
    match Atoi countStr with
    | none =>
      (ApiErrorHandler c 400 "Conversion failed for count '%s'" [countStr]).map
        fun c1 => (c1, db)
    | some count =>
      let rows := limitOffset (orderByTimestampDesc db) count (wrapInt64 (count * page))
      .ok (c.JSON 200 (.rngs (rows.map Row.toRNG)), db)

/-- Embedding of the middleware returned by `ValidateAPIKey`. -/
def ValidateAPIKey (configuration : Configuration) : HandlerFunc := fun c db =>
  if c.authorization ≠ configuration.APIKey then
    (ApiErrorHandler c 401 "API Key does not match" []).map fun c1 => (c1, db)
  else .ok (c, db)

/-! ## main.go: the route table of group `/api/v1` -/

/-- Routes registered on group `/api/v1`. The two routes with a `:username` segment carry its
(non-empty) value. -/
inductive Route where
  | Ping
  | GetUsers
  | GetGenerationDetails
  | RandomFloat0to1
  | GetAverageRNG
  | GetAllAveragesRNG
  | RandomFloat0to1Username (username : String)
  | GetAverageRNGUsername (username : String)
deriving DecidableEq

/-- Value of `c.Param("username")` on a route. -/
def Route.param : Route → String
  | .RandomFloat0to1Username u => u
  | .GetAverageRNGUsername u => u
  | _ => ""

/-- Handlers registered for a route, in the order of the `v1.GET` calls. -/
def Route.handlers (configuration : Configuration) (caseTable : Char → Char) :
    Route → List HandlerFunc
  | .Ping => [RNGBackend.Ping]
  | .GetUsers => [ValidateAPIKey configuration, RNGBackend.GetUsers]
  | .GetGenerationDetails => [ValidateAPIKey configuration, RNGBackend.GetGenerationDetails]
  | .RandomFloat0to1 => [ValidateAPIKey configuration, RNGBackend.RandomFloat0to1 caseTable]
  | .GetAverageRNG => [ValidateAPIKey configuration, GetUserAverageRNG caseTable]
  | .GetAllAveragesRNG => [ValidateAPIKey configuration, RNGBackend.GetAllAveragesRNG]
  | .RandomFloat0to1Username _ =>
    [ValidateAPIKey configuration, RNGBackend.RandomFloat0to1 caseTable]
  | .GetAverageRNGUsername _ => [ValidateAPIKey configuration, GetUserAverageRNG caseTable]

/-- A request that matched a route of the group. -/
structure Request where
  route : Route
  authorization : String
  page : Option String
  count : Option String
deriving DecidableEq

/-- Context gin builds for a request. -/
def Request.context (req : Request) (inputs : Inputs) : Context :=
  { authorization := req.authorization
    username := req.route.param
    page := req.page
    count := req.count
    inputs := inputs
    aborted := false
    response := none }

/-- One request served by group `/api/v1`: the route's handler chain runs on a fresh context.
The result is the response written, if any, and the database afterwards. The engine-wide
middleware (`gin.Default()`, `cors.New`) belongs to other packages and runs before this chain;
`serve` starts where the handlers registered by `v1.GET` start. -/
def serve (configuration : Configuration) (caseTable : Char → Char) (req : Request)
    (inputs : Inputs) (db : Database) : Except Fault (Option Response × Database) :=
  match runChain (req.route.handlers configuration caseTable) (req.context inputs) db with
  | .error f => .error f
  | .ok (c, db1) => .ok (c.response, db1)

/-- Databases the service can produce: the empty table, and what `serve` leaves behind. -/
inductive Reachable (configuration : Configuration) (caseTable : Char → Char) :
    Database → Prop where
  | empty : Reachable configuration caseTable []
  | step {db db1 : Database} (req : Request) (inputs : Inputs) (resp : Option Response) :
      Reachable configuration caseTable db →
      serve configuration caseTable req inputs db = .ok (resp, db1) →
      Reachable configuration caseTable db1

/-! ## Aggregates as the specification words them -/

/-- The Average Aggregate of user `u`: the number of rows filed under exactly `u` and the
arithmetic mean of their values. -/
def userAverage (db : Database) (u : String) : Average :=
  { User := u
    Count := (rowsOf db u).length
    Average := ((rowsOf db u).map Row.rng).sum / (rowsOf db u).length }

/-- The aggregate of user `u` as view `AverageRNG` computes it: the number of rows filed under
exactly `u`, and their binary64 average. -/
def viewAverage (db : Database) (u : String) : Average :=
  { User := u
    Count := (rowsOf db u).length
    Average := roundFloat64 (sumFloat64 ((rowsOf db u).map Row.rng) / (rowsOf db u).length) }

/-- Positions `(p-1)*K` up to, and excluding, `p*K` of the rows ordered by timestamp
descending: page `p` of size `K`. -/
def pageOf (db : Database) (p K : Nat) : List Row :=
  ((orderByTimestampDesc db).drop ((p - 1) * K)).take K

/-! ## Concrete requests and databases -/

/-- A configuration whose key is `secret`. -/
def sampleConfiguration : Configuration :=
  { Port := 9999, Host := "0.0.0.0", APIKey := "secret",
    AllowedOrigins := ["http://localhost"], AllowAllOrigins := false }

/-- Inputs of a sample request. -/
def sampleInputs : Inputs :=
  { now := ⟨1700000000, 250⟩, uuid := "id-9", suffixEntropy := 17, floatEntropy := 3 }

/-- Context of a sample request with path parameter `u` and no query parameter. -/
def contextOf (u : String) : Context :=
  { authorization := "", username := u, page := none, count := none,
    inputs := sampleInputs, aborted := false, response := none }

/-- Context of a sample request with query parameters `page` and `count`. -/
def contextOfPage (page count : String) : Context :=
  { authorization := "", username := "", page := some page, count := some count,
    inputs := sampleInputs, aborted := false, response := none }

/-- A table with one row, filed under `bob`. -/
def oneUser : Database := [⟨"id-1", "bob", 1 / 2, 1700000000⟩]

/-- A table with two rows of `bob` and one row of `Bob`. -/
def twoSpellings : Database :=
  [⟨"id-1", "bob", 3 / 4, 1700000000⟩, ⟨"id-2", "Bob", 1 / 4, 1700000001⟩,
    ⟨"id-3", "bob", 3 / 4, 1700000002⟩]

/-- A table with one row of `bob` and one row of a user whose name is `all`, a NUL and `x`. -/
def withNulUser : Database :=
  [⟨"id-1", "bob", 1 / 2, 1700000000⟩, ⟨"id-2", "all\x00x", 1 / 4, 1700000001⟩]


/-! ## Facts about binary64 rounding -/

theorem roundHalfEven_intCast (z : ℤ) : roundHalfEven (z : ℚ) = z := by
  simp [roundHalfEven]

/-- A value `m * 2^k` with a 53-bit significand `m` and `k` in range is its own rounding. -/
theorem roundFloat64_normal (m : ℕ) (k : ℤ) (hlo : 2 ^ 52 ≤ m) (hhi : m < 2 ^ 53)
    (hk : -1074 ≤ k) : roundFloat64 ((m : ℚ) * (2 : ℚ) ^ k) = (m : ℚ) * (2 : ℚ) ^ k := by
  have h2k : (0 : ℚ) < (2 : ℚ) ^ k := zpow_pos (by norm_num) k
  have hm : (0 : ℚ) < (m : ℚ) := by
    have : 0 < m := lt_of_lt_of_le (by norm_num) hlo
    exact_mod_cast this
  have hq : (0 : ℚ) < (m : ℚ) * (2 : ℚ) ^ k := mul_pos hm h2k
  have hlog : Int.log 2 ((m : ℚ) * (2 : ℚ) ^ k) = 52 + k := by
    apply le_antisymm
    · have hlt : (m : ℚ) * (2 : ℚ) ^ k < ((2 : ℕ) : ℚ) ^ (52 + k + 1) := by
        have hm' : (m : ℚ) < 2 ^ 53 := by exact_mod_cast hhi
        have : ((2 : ℕ) : ℚ) ^ (52 + k + 1) = 2 ^ 53 * (2 : ℚ) ^ k := by
          rw [show (52 + k + 1 : ℤ) = 53 + k by ring, zpow_add₀ (by norm_num)]
          norm_num
        rw [this]
        exact mul_lt_mul_of_pos_right hm' h2k
      have := (Int.lt_zpow_iff_log_lt (by norm_num : 1 < 2) hq).1 hlt
      omega
    · apply (Int.zpow_le_iff_le_log (by norm_num : 1 < 2) hq).1
      have hm' : (2 : ℚ) ^ 52 ≤ (m : ℚ) := by exact_mod_cast hlo
      have : ((2 : ℕ) : ℚ) ^ (52 + k) = 2 ^ 52 * (2 : ℚ) ^ k := by
        rw [zpow_add₀ (by norm_num)]
        norm_num
      rw [this]
      exact mul_le_mul_of_nonneg_right hm' h2k.le
  unfold roundFloat64
  rw [if_neg hq.ne', abs_of_pos hq, hlog]
  have he : max (52 + k - 52) (-1074 : ℤ) = k := by
    rw [show (52 + k - 52 : ℤ) = k by ring]
    exact max_eq_left hk
  simp only [he]
  rw [mul_div_assoc, div_self h2k.ne', mul_one]
  have : roundHalfEven ((m : ℚ)) = (m : ℤ) := by
    have := roundHalfEven_intCast (m : ℤ)
    simpa using this
  rw [this]
  simp

/-- Every positive integer below `2^53` is a 53-bit significand times a power of two. -/
theorem exists_normal_form (n : ℕ) (hpos : 0 < n) (hn : n < 2 ^ 53) :
    ∃ (m : ℕ) (k : ℤ), 2 ^ 52 ≤ m ∧ m < 2 ^ 53 ∧ -52 ≤ k ∧ (n : ℚ) = (m : ℚ) * (2 : ℚ) ^ k := by
  have hlo : 2 ^ Nat.log 2 n ≤ n := Nat.pow_log_le_self 2 hpos.ne'
  have hhi : n < 2 ^ (Nat.log 2 n + 1) := Nat.lt_pow_succ_log_self (by norm_num) n
  have hL : Nat.log 2 n < 53 := by
    have : 2 ^ Nat.log 2 n < 2 ^ 53 := lt_of_le_of_lt hlo hn
    exact (Nat.pow_lt_pow_iff_right (by norm_num)).1 this
  set L := Nat.log 2 n with hLdef
  have hsplit : 2 ^ (52 - L) * 2 ^ L = (2 : ℕ) ^ 52 := by
    rw [← pow_add]
    congr 1
    omega
  refine ⟨n * 2 ^ (52 - L), (L : ℤ) - 52, ?_, ?_, by omega, ?_⟩
  · calc 2 ^ 52 = 2 ^ L * 2 ^ (52 - L) := by rw [mul_comm, hsplit]
      _ ≤ n * 2 ^ (52 - L) := Nat.mul_le_mul_right _ hlo
  · calc n * 2 ^ (52 - L) < 2 ^ (L + 1) * 2 ^ (52 - L) :=
          Nat.mul_lt_mul_of_pos_right hhi (by positivity)
      _ = 2 ^ 53 := by
          rw [← pow_add]
          congr 1
          omega
  · have h1 : (2 : ℚ) ^ ((L : ℤ) - 52) = (2 : ℚ) ^ L / 2 ^ 52 := by
      rw [zpow_sub₀ (by norm_num)]
      norm_cast
    have h2 : ((2 : ℚ) ^ (52 - L)) * (2 : ℚ) ^ L = 2 ^ 52 := by exact_mod_cast hsplit
    rw [h1]
    push_cast
    rw [mul_assoc, ← mul_div_assoc, h2]
    field_simp

/-- The value `RandomFloat64` computes is the exact quotient of the draw by `2^53`. -/
theorem RandomFloat64_eq (entropy : ℕ) :
    RandomFloat64 entropy = ((entropy % 2 ^ 53 : ℕ) : ℚ) / 2 ^ 53 := by
  unfold RandomFloat64 Intn randInt
  have hn : entropy % 2 ^ 53 < 2 ^ 53 := Nat.mod_lt _ (by norm_num)
  generalize entropy % 2 ^ 53 = n at hn
  rcases Nat.eq_zero_or_pos n with h0 | hpos
  · subst h0
    simp [roundFloat64]
  · obtain ⟨m, k, hlo, hhi, hk, hnm⟩ := exists_normal_form n hpos hn
    have hconv : roundFloat64 (n : ℚ) = n := by
      rw [hnm]
      exact roundFloat64_normal m k hlo hhi (by omega)
    rw [hconv]
    have hquot : (n : ℚ) / 2 ^ 53 = (m : ℚ) * (2 : ℚ) ^ (k - 53) := by
      rw [hnm, zpow_sub₀ (by norm_num), mul_div_assoc]
      norm_cast
    rw [hquot]
    exact roundFloat64_normal m (k - 53) hlo hhi (by omega)

/-- A quotient `n / 2^53` with `n < 2^53` is a binary64 value. -/
theorem roundFloat64_draw (n : ℕ) (hn : n < 2 ^ 53) :
    roundFloat64 ((n : ℚ) / 2 ^ 53) = (n : ℚ) / 2 ^ 53 := by
  rcases Nat.eq_zero_or_pos n with h0 | hpos
  · subst h0
    simp [roundFloat64]
  · obtain ⟨m, k, hlo, hhi, hk, hnm⟩ := exists_normal_form n hpos hn
    have hquot : (n : ℚ) / 2 ^ 53 = (m : ℚ) * (2 : ℚ) ^ (k - 53) := by
      rw [hnm, zpow_sub₀ (by norm_num), mul_div_assoc]
      norm_cast
    rw [hquot]
    exact roundFloat64_normal m (k - 53) hlo hhi (by omega)

theorem roundFloat64_quarter : roundFloat64 (1 / 4) = 1 / 4 := by
  have h := roundFloat64_draw (2 ^ 51) (by norm_num)
  have e : (((2 ^ 51 : ℕ) : ℚ)) / 2 ^ 53 = 1 / 4 := by norm_num
  rw [e] at h
  exact h

theorem roundFloat64_half : roundFloat64 (1 / 2) = 1 / 2 := by
  have h := roundFloat64_draw (2 ^ 52) (by norm_num)
  have e : (((2 ^ 52 : ℕ) : ℚ)) / 2 ^ 53 = 1 / 2 := by norm_num
  rw [e] at h
  exact h

/-- The average of a single binary64 value is that value. -/
theorem sqlAvg_singleton (v : ℚ) (hv : roundFloat64 v = v) : sqlAvg [v] = some v := by
  simp [sqlAvg, sumFloat64, hv]

theorem RandomFloat64_nonneg (entropy : ℕ) : 0 ≤ RandomFloat64 entropy := by
  rw [RandomFloat64_eq]
  positivity

theorem RandomFloat64_lt_one (entropy : ℕ) : RandomFloat64 entropy < 1 := by
  rw [RandomFloat64_eq, div_lt_one (by positivity)]
  have : entropy % 2 ^ 53 < 2 ^ 53 := Nat.mod_lt _ (by norm_num)
  exact_mod_cast this

/-! ## Facts about the string primitives -/

theorem ToLower_length (caseTable : Char → Char) (s : String) :
    (ToLower caseTable s).length = s.length := by
  cases s with
  | mk l => exact List.length_map l _

theorem ToLower_ne_of_length (caseTable : Char → Char) (s t : String)
    (h : s.length ≠ t.length) : ToLower caseTable s ≠ t := by
  intro heq
  apply h
  rw [← heq, ToLower_length]

/-- Text without a percent sign is copied by the formatting loop. -/
theorem sprintfLoop_literal (text : List Char) (h : '%' ∉ text) :
    sprintfLoop text [] = some text := by
  induction text with
  | nil => simp [sprintfLoop, extraArgs]
  | cons c t ih =>
    have hc : c ≠ '%' := fun e => h (by simp [e])
    have ht : '%' ∉ t := fun e => h (by simp [e])
    cases t with
    | nil => simp [sprintfLoop, extraArgs, hc]
    | cons d rest =>
      rw [sprintfLoop, if_neg hc, ih ht]
      rfl

/-- A format whose only directive is one `%s` prints its single operand in place of it. -/
theorem sprintfLoop_single_verb (pre post : List Char) (a : Arg) (hpre : '%' ∉ pre)
    (hpost : '%' ∉ post) :
    sprintfLoop (pre ++ '%' :: 's' :: post) [a] = some (pre ++ a.render ++ post) := by
  induction pre with
  | nil =>
    simp [sprintfLoop, sprintfLoop_literal post hpost]
  | cons c t ih =>
    have hc : c ≠ '%' := fun e => hpre (by simp [e])
    have ht : '%' ∉ t := fun e => hpre (by simp [e])
    cases t with
    | nil =>
      have := ih ht
      simp only [List.nil_append] at this
      simp only [List.cons_append, List.nil_append]
      rw [sprintfLoop, if_neg hc, this]
      rfl
    | cons d rest =>
      have := ih ht
      simp only [List.cons_append] at this
      simp only [List.cons_append]
      rw [sprintfLoop, if_neg hc, this]
      rfl

theorem Sprintf_single_verb (pre post u : String) (hpre : '%' ∉ pre.data)
    (hpost : '%' ∉ post.data) :
    Sprintf (pre ++ "%s" ++ post) [Arg.strs [u]] = some (pre ++ "[" ++ u ++ "]" ++ post) := by
  unfold Sprintf
  have hfmt : (pre ++ "%s" ++ post).data = pre.data ++ '%' :: 's' :: post.data := by
    simp [String.data_append]
  rw [hfmt, sprintfLoop_single_verb pre.data post.data _ hpre hpost]
  simp only [Option.map_some', Option.some.injEq]
  apply String.ext
  simp [Arg.render, String.data_append, String.intercalate, String.intercalate.go]

/-- What `ApiErrorHandler` writes for one string parameter and a format with the single
directive `%s`. -/
theorem ApiErrorHandler_single (c : Context) (status : Nat) (pre post u : String)
    (hpre : '%' ∉ pre.data) (hpost : '%' ∉ post.data) :
    ApiErrorHandler c status (pre ++ "%s" ++ post) [u]
      = .ok (c.AbortWithStatusJSON status
          (.error ⟨pre ++ "[" ++ u ++ "]" ++ post, c.inputs.now⟩)) := by
  unfold ApiErrorHandler
  rw [if_neg (by simp), Sprintf_single_verb pre post u hpre hpost]

theorem ApiErrorHandler_reserved (c : Context) (u : String) :
    ApiErrorHandler c 405 "The username '%s' is reserved." [u]
      = .ok (c.AbortWithStatusJSON 405
          (.error ⟨"The username '[" ++ u ++ "]' is reserved.", c.inputs.now⟩)) := by
  have h := ApiErrorHandler_single c 405 "The username '" "' is reserved." u
    (by decide) (by decide)
  have e1 : ("The username '" : String) ++ "%s" ++ "' is reserved."
      = "The username '%s' is reserved." := by decide
  have e2 : ("The username '" : String) ++ "[" ++ u ++ "]" ++ "' is reserved."
      = "The username '[" ++ u ++ "]' is reserved." := by
    apply String.ext
    simp [String.data_append]
  rw [e1, e2] at h
  exact h

theorem ApiErrorHandler_not_found (c : Context) (u : String) :
    ApiErrorHandler c 404 "Could not find user '%s'" [u]
      = .ok (c.AbortWithStatusJSON 404
          (.error ⟨"Could not find user '[" ++ u ++ "]'", c.inputs.now⟩)) := by
  have h := ApiErrorHandler_single c 404 "Could not find user '" "'" u (by decide) (by decide)
  have e1 : ("Could not find user '" : String) ++ "%s" ++ "'"
      = "Could not find user '%s'" := by decide
  have e2 : ("Could not find user '" : String) ++ "[" ++ u ++ "]" ++ "'"
      = "Could not find user '[" ++ u ++ "]'" := by
    apply String.ext
    simp [String.data_append]
  rw [e1, e2] at h
  exact h

/-! ## Facts about the route table -/

theorem Route.handlers_protected (configuration : Configuration) (caseTable : Char → Char)
    (r : Route) (h : r ≠ .Ping) :
    ∃ handler, r.handlers configuration caseTable = [ValidateAPIKey configuration, handler] := by
  cases r <;> first | exact absurd rfl h | exact ⟨_, rfl⟩

/-- With a wrong key the chain ends after the middleware, whatever handler follows it. -/
theorem runChain_unauthorized (configuration : Configuration) (handler : HandlerFunc)
    (c : Context) (db : Database) (hc : c.aborted = false)
    (hkey : c.authorization ≠ configuration.APIKey) :
    runChain [ValidateAPIKey configuration, handler] c db
      = .ok (c.AbortWithStatusJSON 401
          (.error ⟨"API Key does not match", c.inputs.now⟩), db) := by
  simp [runChain, hc, ValidateAPIKey, hkey, ApiErrorHandler, Except.map,
    Context.AbortWithStatusJSON]

/-- With the right key the chain is the middleware followed by the handler. -/
theorem runChain_authorized (configuration : Configuration) (handler : HandlerFunc)
    (c : Context) (db : Database) (hc : c.aborted = false)
    (hkey : c.authorization = configuration.APIKey) :
    runChain [ValidateAPIKey configuration, handler] c db
      = match handler c db with
        | .error f => .error f
        | .ok (c1, db1) => .ok (c1, db1) := by
  simp only [runChain, hc, ValidateAPIKey, hkey, ne_eq, not_true_eq_false, if_false]
  cases handler c db with
  | error f => rfl
  | ok p =>
    obtain ⟨c1, db1⟩ := p
    simp only [Bool.false_eq_true, if_false]

/-! ## Facts about `RandomFloat0to1` -/

theorem generationUsername_of_named (caseTable : Char → Char) (c : Context)
    (hne : c.username.length ≠ 0) (hundef : ToLower caseTable c.username ≠ "undefined") :
    generationUsername caseTable c = c.username := by
  unfold generationUsername
  rw [if_neg]
  rintro (h | h)
  · exact hne h
  · exact hundef h

theorem generationUsername_of_reserved (caseTable : Char → Char) (c : Context)
    (h : ToLower caseTable c.username = "all") :
    generationUsername caseTable c = c.username := by
  have hlen : c.username.length = 3 := by
    rw [← ToLower_length caseTable, h]
    decide
  apply generationUsername_of_named
  · omega
  · rw [h]
    decide

theorem randInt_lt (max entropy : Nat) (h : 0 < max) : randInt max entropy < max :=
  Nat.mod_lt _ h

theorem decimal_length_of_digit (d : Nat) (h : d < 9) : (decimal d).length = 1 := by
  interval_cases d <;> decide

theorem placeholder_not_reserved (caseTable : Char → Char) (d : Nat) (h : d < 9) :
    ToLower caseTable ("Debug" ++ decimal d) ≠ "all" := by
  apply ToLower_ne_of_length
  rw [String.length_append, decimal_length_of_digit d h]
  decide

/-- The insert branch of `RandomFloat0to1`, reached whenever the filing username is not
reserved. -/
theorem RandomFloat0to1_of_not_reserved (caseTable : Char → Char) (c : Context) (db : Database)
    (h : ToLower caseTable (generationUsername caseTable c) ≠ "all") :
    RandomFloat0to1 caseTable c db
      = if c.inputs.uuid ∈ db.map Row.id then .error .fatal
        else .ok (c.JSON 200 (.rng
              { ID := c.inputs.uuid
                User := generationUsername caseTable c
                RNG := RandomFloat64 c.inputs.floatEntropy
                Timestamp := c.inputs.now }),
            db ++ [⟨c.inputs.uuid, generationUsername caseTable c,
              RandomFloat64 c.inputs.floatEntropy, c.inputs.now.Format⟩]) := by
  unfold RandomFloat0to1
  simp only [if_neg h, insertRNG]
  split_ifs <;> rfl

/-! ## Facts about the view `AverageRNG` -/

theorem mem_groupKeys (db : Database) (u : String) :
    u ∈ groupKeys db ↔ ∃ r ∈ db, r.username = u := by
  unfold groupKeys
  rw [(List.perm_insertionSort _ _).mem_iff, List.mem_dedup, List.mem_map]

theorem nodup_groupKeys (db : Database) : (groupKeys db).Nodup :=
  (List.perm_insertionSort _ _).nodup_iff.2 (List.nodup_dedup _)

theorem rowsOf_ne_nil (db : Database) (u : String) (h : u ∈ groupKeys db) :
    rowsOf db u ≠ [] := by
  obtain ⟨r, hr, hu⟩ := (mem_groupKeys db u).1 h
  have : r ∈ rowsOf db u := by
    unfold rowsOf
    rw [List.mem_filter]
    exact ⟨hr, by simpa using hu⟩
  exact List.ne_nil_of_mem this

theorem groupRows_username (db : Database) (row : AverageRow) (h : row ∈ groupRows db) :
    ∃ r ∈ db, r.username = row.username := by
  unfold groupRows at h
  rw [List.mem_map] at h
  obtain ⟨u, hu, rfl⟩ := h
  exact (mem_groupKeys db u).1 hu

theorem asciiLower_toNat_le (c t : Char) (ht : t.toNat ≤ 127) (h : asciiLower c = t) :
    c.toNat ≤ 127 := by
  unfold asciiLower at h
  split_ifs at h with hc
  · have hz := hc.2
    rw [Char.le_def] at hz
    have h2 : c.val.toNat ≤ ('Z' : Char).val.toNat := hz
    have h3 : ('Z' : Char).val.toNat = 90 := by decide
    have h4 : c.toNat = c.val.toNat := rfl
    omega
  · subst h
    exact ht

theorem toLowerRune_of_asciiLower (caseTable : Char → Char) (c t : Char) (ht : t.toNat ≤ 127)
    (h : asciiLower c = t) : toLowerRune caseTable c = t := by
  unfold toLowerRune
  rw [if_pos (asciiLower_toNat_le c t ht h), h]

theorem cText_of_no_nul (u : String) (h : Char.ofNat 0 ∉ u.data) : cText u = u.data := by
  unfold cText
  rw [List.takeWhile_eq_self_iff]
  intro c hc
  have : c ≠ Char.ofNat 0 := fun e => h (e ▸ hc)
  simpa using this

/-- A username without NUL that `LIKE 'all'` accepts lower-cases to `all` in Go as well. -/
theorem ToLower_of_sqlLike_all (caseTable : Char → Char) (u : String)
    (hnul : Char.ofNat 0 ∉ u.data) (h : sqlLike u "all" = true) :
    ToLower caseTable u = "all" := by
  have hpat : cText "all" = ['a', 'l', 'l'] := by decide
  unfold sqlLike at h
  rw [cText_of_no_nul u hnul, hpat] at h
  obtain ⟨l⟩ := u
  have ha : asciiLower 'a' = 'a' := by decide
  have hl : asciiLower 'l' = 'l' := by decide
  rcases l with _ | ⟨a, _ | ⟨b, _ | ⟨c, _ | ⟨d, rest⟩⟩⟩⟩ <;>
    simp [likeMatch, ha, hl] at h
  obtain ⟨h1, h2, h3⟩ := h
  have e1 := toLowerRune_of_asciiLower caseTable a 'a' (by decide) h1.symm
  have e2 := toLowerRune_of_asciiLower caseTable b 'l' (by decide) h2.symm
  have e3 := toLowerRune_of_asciiLower caseTable c 'l' (by decide) h3.symm
  simp [ToLower, e1, e2, e3]

theorem scanAverages_keys (db : Database) (keys : List String)
    (hkeys : ∀ u ∈ keys, rowsOf db u ≠ []) :
    scanAverages (keys.map fun u =>
        ⟨u, sqlAvg ((rowsOf db u).map Row.rng), (rowsOf db u).length⟩)
      = .ok (keys.map (viewAverage db)) := by
  induction keys with
  | nil => rfl
  | cons u us ih =>
    have hu : (rowsOf db u).length ≠ 0 := by
      have := hkeys u (by simp)
      simpa using this
    have hrest := ih fun v hv => hkeys v (by simp [hv])
    have havg : sqlAvg ((rowsOf db u).map Row.rng)
        = some (roundFloat64
            (sumFloat64 ((rowsOf db u).map Row.rng) / (rowsOf db u).length)) := by
      simp [sqlAvg, hu]
    rw [List.map_cons, havg, scanAverages, hrest]
    rfl

/-- The rows `GetAllAveragesRNG` returns when no stored username is `LIKE 'all'`. -/
theorem GetAllAveragesRNG_eq (c : Context) (db : Database)
    (h : ∀ r ∈ db, sqlLike r.username "all" = false) :
    GetAllAveragesRNG c db
      = .ok (c.JSON 200 (.averages ((groupKeys db).map (viewAverage db))), db) := by
  have hfilter : ((AverageRNG db).filter fun r => !sqlLike r.username "all") = groupRows db := by
    unfold AverageRNG
    rw [List.filter_append]
    have h1 : ((groupRows db).filter fun r => !sqlLike r.username "all") = groupRows db := by
      rw [List.filter_eq_self]
      intro row hrow
      obtain ⟨r, hr, hu⟩ := groupRows_username db row hrow
      rw [← hu, h r hr]
      rfl
    have h2 : sqlLike "All" "all" = true := by decide
    rw [h1]
    simp [h2]
  unfold GetAllAveragesRNG
  rw [hfilter]
  unfold groupRows
  rw [scanAverages_keys db (groupKeys db) fun u hu => rowsOf_ne_nil db u hu]

/-! ## Facts about reachable databases -/

theorem db_of_map_pair {db db1 : Database} {x : Except Fault Context} {c1 : Context}
    (h : (x.map fun c => (c, db)) = .ok (c1, db1)) : db1 = db := by
  cases x with
  | error f => simp [Except.map] at h
  | ok c =>
    simp only [Except.map, Except.ok.injEq, Prod.mk.injEq] at h
    exact h.2.symm

theorem ValidateAPIKey_db (configuration : Configuration) (c c1 : Context) (db db1 : Database)
    (h : ValidateAPIKey configuration c db = .ok (c1, db1)) : db1 = db := by
  unfold ValidateAPIKey at h
  split_ifs at h
  · exact db_of_map_pair h
  · simp only [Except.ok.injEq, Prod.mk.injEq] at h
    exact h.2.symm

theorem Ping_db (c c1 : Context) (db db1 : Database) (h : Ping c db = .ok (c1, db1)) :
    db1 = db := by
  simp only [Ping, Except.ok.injEq, Prod.mk.injEq] at h
  exact h.2.symm

theorem GetUsers_db (c c1 : Context) (db db1 : Database) (h : GetUsers c db = .ok (c1, db1)) :
    db1 = db := by
  simp only [GetUsers, Except.ok.injEq, Prod.mk.injEq] at h
  exact h.2.symm

theorem GetAllAveragesRNG_db (c c1 : Context) (db db1 : Database)
    (h : GetAllAveragesRNG c db = .ok (c1, db1)) : db1 = db := by
  unfold GetAllAveragesRNG at h
  split at h
  · simp at h
  · simp only [Except.ok.injEq, Prod.mk.injEq] at h
    exact h.2.symm

theorem GetUserAverageRNG_db (caseTable : Char → Char) (c c1 : Context) (db db1 : Database)
    (h : GetUserAverageRNG caseTable c db = .ok (c1, db1)) : db1 = db := by
  unfold GetUserAverageRNG at h
  dsimp only at h
  split at h
  · simp only [Except.ok.injEq, Prod.mk.injEq] at h
    exact h.2.symm
  · exact db_of_map_pair h

theorem GetGenerationDetails_db (c c1 : Context) (db db1 : Database)
    (h : GetGenerationDetails c db = .ok (c1, db1)) : db1 = db := by
  unfold GetGenerationDetails at h
  dsimp only at h
  split at h
  · exact db_of_map_pair h
  · split at h
    · exact db_of_map_pair h
    · simp only [Except.ok.injEq, Prod.mk.injEq] at h
      exact h.2.symm

theorem RandomFloat0to1_db (caseTable : Char → Char) (c c1 : Context) (db db1 : Database)
    (h : RandomFloat0to1 caseTable c db = .ok (c1, db1)) :
    db1 = db ∨ ∃ row : Row, db1 = db ++ [row] ∧ ToLower caseTable row.username ≠ "all" := by
  by_cases hres : ToLower caseTable (generationUsername caseTable c) = "all"
  · left
    unfold RandomFloat0to1 at h
    simp only [if_pos hres] at h
    exact db_of_map_pair h
  · right
    rw [RandomFloat0to1_of_not_reserved caseTable c db hres] at h
    split_ifs at h
    simp only [Except.ok.injEq, Prod.mk.injEq] at h
    exact ⟨_, h.2.symm, hres⟩

theorem runChain_single_db (handler : HandlerFunc) (c c1 : Context) (db db1 : Database)
    (h : runChain [handler] c db = .ok (c1, db1)) :
    db1 = db ∨ handler c db = .ok (c1, db1) := by
  simp only [runChain] at h
  split_ifs at h
  · simp only [Except.ok.injEq, Prod.mk.injEq] at h
    exact Or.inl h.2.symm
  · split at h
    · simp at h
    · rename_i c2 db2 heq
      simp only [Except.ok.injEq, Prod.mk.injEq] at h
      right
      rw [heq, h.1, h.2]

theorem runChain_protected_db (configuration : Configuration) (handler : HandlerFunc)
    (c c1 : Context) (db db1 : Database)
    (h : runChain [ValidateAPIKey configuration, handler] c db = .ok (c1, db1)) :
    db1 = db ∨ ∃ c2, handler c2 db = .ok (c1, db1) := by
  rw [runChain] at h
  split_ifs at h
  · simp only [Except.ok.injEq, Prod.mk.injEq] at h
    exact Or.inl h.2.symm
  · split at h
    · simp at h
    · rename_i c2 db2 heq
      have hdb := ValidateAPIKey_db configuration c c2 db db2 heq
      subst hdb
      rcases runChain_single_db handler c2 c1 db2 db1 h with h1 | h1
      · exact Or.inl h1
      · exact Or.inr ⟨c2, h1⟩

/-- What one request can do to the database: nothing, or append one row whose username does
not lower-case to `all`. -/
theorem serve_db (configuration : Configuration) (caseTable : Char → Char) (req : Request)
    (inputs : Inputs) (resp : Option Response) (db db1 : Database)
    (h : serve configuration caseTable req inputs db = .ok (resp, db1)) :
    db1 = db ∨ ∃ row : Row, db1 = db ++ [row] ∧ ToLower caseTable row.username ≠ "all" := by
  unfold serve at h
  split at h
  · simp at h
  · rename_i c1 db2 heq
    simp only [Except.ok.injEq, Prod.mk.injEq] at h
    obtain ⟨-, hdb⟩ := h
    subst hdb
    cases hr : req.route <;> rw [hr] at heq <;> simp only [Route.handlers] at heq
    case Ping =>
      rcases runChain_single_db _ _ _ _ _ heq with h1 | h1
      · exact Or.inl h1
      · exact Or.inl (Ping_db _ _ _ _ h1)
    case GetUsers =>
      rcases runChain_protected_db _ _ _ _ _ _ heq with h1 | ⟨c2, h1⟩
      · exact Or.inl h1
      · exact Or.inl (GetUsers_db _ _ _ _ h1)
    case GetGenerationDetails =>
      rcases runChain_protected_db _ _ _ _ _ _ heq with h1 | ⟨c2, h1⟩
      · exact Or.inl h1
      · exact Or.inl (GetGenerationDetails_db _ _ _ _ h1)
    case RandomFloat0to1 =>
      rcases runChain_protected_db _ _ _ _ _ _ heq with h1 | ⟨c2, h1⟩
      · exact Or.inl h1
      · exact RandomFloat0to1_db caseTable _ _ _ _ h1
    case GetAverageRNG =>
      rcases runChain_protected_db _ _ _ _ _ _ heq with h1 | ⟨c2, h1⟩
      · exact Or.inl h1
      · exact Or.inl (GetUserAverageRNG_db caseTable _ _ _ _ h1)
    case GetAllAveragesRNG =>
      rcases runChain_protected_db _ _ _ _ _ _ heq with h1 | ⟨c2, h1⟩
      · exact Or.inl h1
      · exact Or.inl (GetAllAveragesRNG_db _ _ _ _ h1)
    case RandomFloat0to1Username u =>
      rcases runChain_protected_db _ _ _ _ _ _ heq with h1 | ⟨c2, h1⟩
      · exact Or.inl h1
      · exact RandomFloat0to1_db caseTable _ _ _ _ h1
    case GetAverageRNGUsername u =>
      rcases runChain_protected_db _ _ _ _ _ _ heq with h1 | ⟨c2, h1⟩
      · exact Or.inl h1
      · exact Or.inl (GetUserAverageRNG_db caseTable _ _ _ _ h1)

/-- No username of a reachable database lower-cases to `all`. -/
theorem Reachable.no_reserved {configuration : Configuration} {caseTable : Char → Char}
    {db : Database} (h : Reachable configuration caseTable db) :
    ∀ r ∈ db, ToLower caseTable r.username ≠ "all" := by
  induction h with
  | empty => simp
  | step req inputs resp _ hserve ih =>
    rcases serve_db _ _ _ _ _ _ _ hserve with h1 | ⟨row, h1, hrow⟩
    · rw [h1]
      exact ih
    · rw [h1]
      intro r hr
      rcases List.mem_append.1 hr with h2 | h2
      · exact ih r h2
      · rw [List.mem_singleton] at h2
        rw [h2]
        exact hrow

/-! ## Facts about `GetUserAverageRNG` -/

theorem groupKeys_twoSpellings : groupKeys twoSpellings = ["Bob", "bob"] := by decide

theorem rowsOf_twoSpellings_Bob :
    rowsOf twoSpellings "Bob" = [⟨"id-2", "Bob", 1 / 4, 1700000001⟩] := rfl

theorem rowsOf_twoSpellings_bob :
    rowsOf twoSpellings "bob"
      = [⟨"id-1", "bob", 3 / 4, 1700000000⟩, ⟨"id-3", "bob", 3 / 4, 1700000002⟩] := rfl

theorem AverageRNG_twoSpellings :
    AverageRNG twoSpellings
      = [⟨"Bob", some (1 / 4), 1⟩, ⟨"bob", sqlAvg [3 / 4, 3 / 4], 2⟩,
          ⟨"All", sqlAvg [3 / 4, 1 / 4, 3 / 4], 3⟩] := by
  have h : AverageRNG twoSpellings
      = [⟨"Bob", sqlAvg [1 / 4], 1⟩, ⟨"bob", sqlAvg [3 / 4, 3 / 4], 2⟩,
          ⟨"All", sqlAvg [3 / 4, 1 / 4, 3 / 4], 3⟩] := by
    simp only [AverageRNG, groupRows, groupKeys_twoSpellings, List.map_cons, List.map_nil,
      rowsOf_twoSpellings_bob, rowsOf_twoSpellings_Bob]
    rfl
  rw [h, sqlAvg_singleton _ roundFloat64_quarter]

theorem groupKeys_withNulUser : groupKeys withNulUser = ["all\x00x", "bob"] := by decide

theorem AverageRNG_withNulUser :
    AverageRNG withNulUser
      = [⟨"all\x00x", some (1 / 4), 1⟩, ⟨"bob", some (1 / 2), 1⟩,
          ⟨"All", sqlAvg [1 / 2, 1 / 4], 2⟩] := by
  have h1 : rowsOf withNulUser "all\x00x" = [⟨"id-2", "all\x00x", 1 / 4, 1700000001⟩] := rfl
  have h2 : rowsOf withNulUser "bob" = [⟨"id-1", "bob", 1 / 2, 1700000000⟩] := rfl
  have h : AverageRNG withNulUser
      = [⟨"all\x00x", sqlAvg [1 / 4], 1⟩, ⟨"bob", sqlAvg [1 / 2], 1⟩,
          ⟨"All", sqlAvg [1 / 2, 1 / 4], 2⟩] := by
    simp only [AverageRNG, groupRows, groupKeys_withNulUser, List.map_cons, List.map_nil,
      h1, h2]
    rfl
  rw [h, sqlAvg_singleton _ roundFloat64_quarter, sqlAvg_singleton _ roundFloat64_half]

/-- A pattern matches itself. -/
theorem likeMatch_self (p : List Char) : likeMatch p p = true := by
  induction p with
  | nil => rfl
  | cons c cs ih =>
    rw [likeMatch]
    split_ifs with hc
    · rw [List.any_eq_true]
      exact ⟨cs, by simp, ih⟩
    · simp [ih]

theorem sqlLike_self (u : String) : sqlLike u u = true := likeMatch_self (cText u)

theorem filter_eq_singleton {α : Type} [DecidableEq α] (l : List α) (p : α → Bool) (a : α)
    (hnodup : l.Nodup) (ha : a ∈ l) (hp : ∀ x ∈ l, p x = true ↔ x = a) :
    l.filter p = [a] := by
  induction l with
  | nil => simp at ha
  | cons x xs ih =>
    rw [List.nodup_cons] at hnodup
    by_cases hx : x = a
    · subst hx
      have hpx : p x = true := (hp x (by simp)).2 rfl
      have hrest : xs.filter p = [] := by
        rw [List.filter_eq_nil_iff]
        intro y hy hpy
        have := (hp y (by simp [hy])).1 hpy
        exact hnodup.1 (this ▸ hy)
      rw [List.filter_cons_of_pos hpx, hrest]
    · have hpx : ¬ p x = true := fun h => hx ((hp x (by simp)).1 h)
      have ha' : a ∈ xs := by
        rcases List.mem_cons.1 ha with h | h
        · exact absurd h.symm hx
        · exact h
      rw [List.filter_cons_of_neg hpx]
      exact ih hnodup.2 ha' fun y hy => hp y (by simp [hy])

/-- When the looked-up name is within the pattern limit and matches no stored username but
its own, `GetUserAverageRNG` answers with the aggregate the view holds for that user. -/
theorem GetUserAverageRNG_unique_match (caseTable : Char → Char) (c : Context) (db : Database)
    (hne : c.username.length ≠ 0) (hundef : ToLower caseTable c.username ≠ "undefined")
    (hlen : likePatternTooLong c.username = false)
    (hhas : ∃ r ∈ db, r.username = c.username)
    (honly : ∀ r ∈ db, sqlLike r.username c.username = true → r.username = c.username) :
    GetUserAverageRNG caseTable c db
      = .ok (c.JSON 200 (.average (viewAverage db c.username)), db) := by
  have hname : averageUsername caseTable c = c.username := by
    unfold averageUsername
    rw [if_neg]
    rintro (h | h)
    · exact hne h
    · exact hundef h
  have hkey : c.username ∈ groupKeys db := (mem_groupKeys db _).2 hhas
  have hkeys : (groupKeys db).filter (fun u => sqlLike u c.username) = [c.username] := by
    apply filter_eq_singleton _ _ _ (nodup_groupKeys db) hkey
    intro u hu
    constructor
    · intro h
      obtain ⟨r, hr, hru⟩ := (mem_groupKeys db u).1 hu
      rw [← hru]
      exact honly r hr (by rw [hru]; exact h)
    · intro h
      rw [h]
      exact sqlLike_self _
  have hgroup : (groupRows db).filter (fun r => sqlLike r.username c.username)
      = [⟨c.username, some (roundFloat64 (sumFloat64 ((rowsOf db c.username).map Row.rng)
          / (rowsOf db c.username).length)), (rowsOf db c.username).length⟩] := by
    unfold groupRows
    rw [List.filter_map]
    have : ((fun r : AverageRow => sqlLike r.username c.username) ∘ fun u =>
        (⟨u, sqlAvg ((rowsOf db u).map Row.rng), (rowsOf db u).length⟩ : AverageRow))
        = fun u => sqlLike u c.username := rfl
    rw [this, hkeys]
    simp [sqlAvg, rowsOf_ne_nil db _ hkey]
  unfold GetUserAverageRNG queryAverage
  dsimp only
  rw [hname, hlen]
  unfold AverageRNG
  rw [List.filter_append, hgroup]
  rfl

theorem RandomFloat64_quarter : RandomFloat64 (2 ^ 51) = 1 / 4 := by
  rw [RandomFloat64_eq]
  norm_num

theorem RandomFloat64_three_quarters : RandomFloat64 (3 * 2 ^ 51) = 3 / 4 := by
  rw [RandomFloat64_eq]
  norm_num

/-- The table `twoSpellings` is what three calls of `RandomFloat0to1` leave behind. -/
theorem twoSpellings_reachable : Reachable sampleConfiguration id twoSpellings := by
  have e : twoSpellings
      = [⟨"id-1", "bob", RandomFloat64 (3 * 2 ^ 51), 1700000000⟩,
          ⟨"id-2", "Bob", RandomFloat64 (2 ^ 51), 1700000001⟩,
          ⟨"id-3", "bob", RandomFloat64 (3 * 2 ^ 51), 1700000002⟩] := by
    rw [RandomFloat64_quarter, RandomFloat64_three_quarters]
    rfl
  rw [e]
  refine @Reachable.step _ _
    [⟨"id-1", "bob", RandomFloat64 (3 * 2 ^ 51), 1700000000⟩,
      ⟨"id-2", "Bob", RandomFloat64 (2 ^ 51), 1700000001⟩] _
    ⟨.RandomFloat0to1Username "bob", "secret", none, none⟩
    ⟨⟨1700000002, 0⟩, "id-3", 0, 3 * 2 ^ 51⟩
    (some ⟨200, .rng ⟨"id-3", "bob", RandomFloat64 (3 * 2 ^ 51), ⟨1700000002, 0⟩⟩⟩) ?_ rfl
  refine @Reachable.step _ _
    [⟨"id-1", "bob", RandomFloat64 (3 * 2 ^ 51), 1700000000⟩] _
    ⟨.RandomFloat0to1Username "Bob", "secret", none, none⟩
    ⟨⟨1700000001, 0⟩, "id-2", 0, 2 ^ 51⟩
    (some ⟨200, .rng ⟨"id-2", "Bob", RandomFloat64 (2 ^ 51), ⟨1700000001, 0⟩⟩⟩) ?_ rfl
  exact Reachable.step
    ⟨.RandomFloat0to1Username "bob", "secret", none, none⟩
    ⟨⟨1700000000, 0⟩, "id-1", 0, 3 * 2 ^ 51⟩
    (some ⟨200, .rng ⟨"id-1", "bob", RandomFloat64 (3 * 2 ^ 51), ⟨1700000000, 0⟩⟩⟩)
    Reachable.empty rfl

theorem RandomFloat64_half : RandomFloat64 (2 ^ 52) = 1 / 2 := by
  rw [RandomFloat64_eq]
  norm_num

/-- The table `oneUser` is what one call of `RandomFloat0to1` leaves behind. -/
theorem oneUser_reachable : Reachable sampleConfiguration id oneUser := by
  have e : oneUser = [⟨"id-1", "bob", RandomFloat64 (2 ^ 52), 1700000000⟩] := by
    rw [RandomFloat64_half]
    rfl
  rw [e]
  exact Reachable.step
    ⟨.RandomFloat0to1Username "bob", "secret", none, none⟩
    ⟨⟨1700000000, 0⟩, "id-1", 0, 2 ^ 52⟩
    (some ⟨200, .rng ⟨"id-1", "bob", RandomFloat64 (2 ^ 52), ⟨1700000000, 0⟩⟩⟩)
    Reachable.empty rfl

/-- The table `withNulUser` is what two calls of `RandomFloat0to1` leave behind. -/
theorem withNulUser_reachable : Reachable sampleConfiguration id withNulUser := by
  have e : withNulUser
      = [⟨"id-1", "bob", RandomFloat64 (2 ^ 52), 1700000000⟩,
          ⟨"id-2", "all\x00x", RandomFloat64 (2 ^ 51), 1700000001⟩] := by
    rw [RandomFloat64_half, RandomFloat64_quarter]
    rfl
  rw [e]
  refine @Reachable.step _ _
    [⟨"id-1", "bob", RandomFloat64 (2 ^ 52), 1700000000⟩] _
    ⟨.RandomFloat0to1Username "all\x00x", "secret", none, none⟩
    ⟨⟨1700000001, 0⟩, "id-2", 0, 2 ^ 51⟩
    (some ⟨200, .rng ⟨"id-2", "all\x00x", RandomFloat64 (2 ^ 51), ⟨1700000001, 0⟩⟩⟩) ?_ rfl
  exact Reachable.step
    ⟨.RandomFloat0to1Username "bob", "secret", none, none⟩
    ⟨⟨1700000000, 0⟩, "id-1", 0, 2 ^ 52⟩
    (some ⟨200, .rng ⟨"id-1", "bob", RandomFloat64 (2 ^ 52), ⟨1700000000, 0⟩⟩⟩)
    Reachable.empty rfl

/-- On a reachable database none of whose usernames holds a NUL, `GetAllAveragesRNG` answers
with one entry per distinct stored username, the entry the view holds for that user. -/
theorem GetAllAveragesRNG_without_nul (configuration : Configuration)
    (caseTable : Char → Char) (db : Database) (hreach : Reachable configuration caseTable db)
    (hnul : ∀ r ∈ db, Char.ofNat 0 ∉ r.username.data) (c : Context) :
    GetAllAveragesRNG c db
        = .ok (c.JSON 200 (.averages ((groupKeys db).map (viewAverage db))), db)
      ∧ (groupKeys db).Nodup
      ∧ ∀ u : String, u ∈ groupKeys db ↔ ∃ r ∈ db, r.username = u := by
  have hinv := hreach.no_reserved
  have hlike : ∀ r ∈ db, sqlLike r.username "all" = false := by
    intro r hr
    cases hl : sqlLike r.username "all" with
    | false => rfl
    | true => exact absurd (ToLower_of_sqlLike_all caseTable _ (hnul r hr) hl) (hinv r hr)
  exact ⟨GetAllAveragesRNG_eq c db hlike, nodup_groupKeys db, mem_groupKeys db⟩

/-! ## Facts about `GetGenerationDetails` -/

theorem Atoi_range (s : String) (v : Int) (h : Atoi s = some v) :
    -(2 : Int) ^ 63 ≤ v ∧ v < 2 ^ 63 := by
  unfold Atoi at h
  dsimp only at h
  split_ifs at h with h1 h2
  simp only [Option.some.injEq] at h
  rw [← h]
  exact h2

theorem wrapInt64_of_range (x : Int) (hlo : -(2 : Int) ^ 63 ≤ x) (hhi : x < 2 ^ 63) :
    wrapInt64 x = x := by
  unfold wrapInt64
  norm_num at hlo hhi ⊢
  omega

theorem pageOf_length_le (db : Database) (p K : Nat) : (pageOf db p K).length ≤ K :=
  List.length_take_le _ _

theorem orderByTimestampDesc_sorted (db : Database) :
    (orderByTimestampDesc db).Pairwise fun a b => b.timestamp ≤ a.timestamp := by
  haveI : IsTotal Row (fun a b => b.timestamp ≤ a.timestamp) := ⟨fun a b => le_total _ _⟩
  haveI : IsTrans Row (fun a b => b.timestamp ≤ a.timestamp) :=
    ⟨fun a b c hab hbc => le_trans hbc hab⟩
  exact List.sorted_insertionSort (fun a b : Row => b.timestamp ≤ a.timestamp) db

theorem pageOf_sorted (db : Database) (p K : Nat) :
    (pageOf db p K).Pairwise fun a b => b.timestamp ≤ a.timestamp :=
  (orderByTimestampDesc_sorted db).sublist
    ((List.take_sublist _ _).trans (List.drop_sublist _ _))

theorem pageOf_one_two (db : Database) (K : Nat) :
    pageOf db 1 K ++ pageOf db 2 K = (orderByTimestampDesc db).take (2 * K) := by
  unfold pageOf
  simp only [Nat.sub_self, Nat.zero_mul, List.drop_zero, Nat.add_one_sub_one, Nat.one_mul,
    Nat.reduceSubDiff]
  rw [two_mul, List.take_add]

theorem pageOf_one_two_disjoint (db : Database) (K : Nat) (hnodup : (db.map Row.id).Nodup) :
    List.Disjoint (pageOf db 1 K) (pageOf db 2 K) := by
  have hdb : db.Nodup := List.Nodup.of_map _ hnodup
  have hsorted : (orderByTimestampDesc db).Nodup :=
    (List.perm_insertionSort _ db).nodup_iff.2 hdb
  have htake : ((orderByTimestampDesc db).take (2 * K)).Nodup :=
    hsorted.sublist (List.take_sublist _ _)
  rw [← pageOf_one_two] at htake
  exact (List.nodup_append.1 htake).2.2

/-- While `(page-1)*count` fits in 64 bits, `GetGenerationDetails` answers with page `p` of
size `K` of the rows ordered by timestamp descending. -/
theorem GetGenerationDetails_in_range (c : Context) (db : Database) (p K : Nat) (hp : 1 ≤ p)
    (hpage : Atoi (c.page.getD "1") = some (p : Int))
    (hcount : Atoi (c.count.getD "15") = some (K : Int))
    (hrange : (p - 1) * K < 2 ^ 63) :
    GetGenerationDetails c db
      = .ok (c.JSON 200 (.rngs ((pageOf db p K).map Row.toRNG)), db) := by
  have hp63 := (Atoi_range _ _ hpage).2
  have hpage1 : wrapInt64 ((p : Int) - 1) = ((p - 1 : Nat) : Int) := by
    rw [wrapInt64_of_range _ (by norm_num; omega) (by omega)]
    omega
  have hoffset : wrapInt64 ((K : Int) * ((p - 1 : Nat) : Int)) = (((p - 1) * K : Nat) : Int) := by
    have hcast : (K : Int) * ((p - 1 : Nat) : Int) = (((p - 1) * K : Nat) : Int) := by
      push_cast
      ring
    rw [hcast]
    apply wrapInt64_of_range
    · have : (0 : Int) ≤ (((p - 1) * K : Nat) : Int) := Int.natCast_nonneg _
      norm_num at this ⊢
      omega
    · exact_mod_cast hrange
  unfold GetGenerationDetails
  simp only [hpage, hcount, hpage1, hoffset, limitOffset, pageOf, Int.toNat_ofNat]
  rw [if_neg (by omega)]

/-! ## Claims -/

/-- C10. `ApiErrorHandler` hands the whole parameter slice to `fmt.Sprintf` as one operand.
For a format whose only directive is one `%s` (no other percent sign before or after it) and
a single string parameter `u`, the message of the error body is the format with `%s` replaced
by `[u]`; in particular the 405 message is `The username '[u]' is reserved.` and the 404
message is `Could not find user '[u]'`. With no parameter the message is the format itself. In
each case the context is aborted with the given status. -/
theorem ApiErrorHandler_message (c : Context) (status : Nat) (pre post u : String)
    (hpre : '%' ∉ pre.data) (hpost : '%' ∉ post.data) :
    ApiErrorHandler c status (pre ++ "%s" ++ post) [u]
        = .ok (c.AbortWithStatusJSON status
            (.error ⟨pre ++ "[" ++ u ++ "]" ++ post, c.inputs.now⟩))
      ∧ ApiErrorHandler c 405 "The username '%s' is reserved." [u]
        = .ok (c.AbortWithStatusJSON 405
            (.error ⟨"The username '[" ++ u ++ "]' is reserved.", c.inputs.now⟩))
      ∧ ApiErrorHandler c 404 "Could not find user '%s'" [u]
        = .ok (c.AbortWithStatusJSON 404
            (.error ⟨"Could not find user '[" ++ u ++ "]'", c.inputs.now⟩))
      ∧ ∀ message : String, ApiErrorHandler c status message []
        = .ok (c.AbortWithStatusJSON status (.error ⟨message, c.inputs.now⟩)) :=
  ⟨ApiErrorHandler_single c status pre post u hpre hpost, ApiErrorHandler_reserved c u,
    ApiErrorHandler_not_found c u, fun _ => rfl⟩

/-- C2. When the username lower-cases to `all`, `RandomFloat0to1` answers 405 with an error
body, aborts the context and returns the database as it received it: nothing is inserted. -/
theorem RandomFloat0to1_reserved (caseTable : Char → Char) (c : Context) (db : Database)
    (h : ToLower caseTable c.username = "all") :
    RandomFloat0to1 caseTable c db
      = .ok (c.AbortWithStatusJSON 405
          (.error ⟨"The username '[" ++ c.username ++ "]' is reserved.", c.inputs.now⟩), db) := by
  have hu := generationUsername_of_reserved caseTable c h
  unfold RandomFloat0to1
  simp only [hu, if_pos h, ApiErrorHandler_reserved]
  rfl

/-- C9. For an empty username, or one that lower-cases to `undefined`, `RandomFloat0to1` files
the draw under `Debug` followed by the decimal digit `d = rand.Int(9)`, with `d ≤ 8` and a
rendering of exactly one character. The placeholder never lower-cases to `all`, so the handler
reaches the insert: it ends the process on a duplicate id, and otherwise answers 200 and
appends one row whose username is the placeholder. -/
theorem RandomFloat0to1_placeholder (caseTable : Char → Char) (c : Context) (db : Database)
    (h : c.username.length = 0 ∨ ToLower caseTable c.username = "undefined") :
    randInt 9 c.inputs.suffixEntropy ≤ 8
      ∧ (decimal (randInt 9 c.inputs.suffixEntropy)).length = 1
      ∧ generationUsername caseTable c = "Debug" ++ decimal (randInt 9 c.inputs.suffixEntropy)
      ∧ ToLower caseTable (generationUsername caseTable c) ≠ "all"
      ∧ RandomFloat0to1 caseTable c db
        = if c.inputs.uuid ∈ db.map Row.id then .error .fatal
          else .ok (c.JSON 200 (.rng
                { ID := c.inputs.uuid
                  User := "Debug" ++ decimal (randInt 9 c.inputs.suffixEntropy)
                  RNG := RandomFloat64 c.inputs.floatEntropy
                  Timestamp := c.inputs.now }),
              db ++ [⟨c.inputs.uuid, "Debug" ++ decimal (randInt 9 c.inputs.suffixEntropy),
                RandomFloat64 c.inputs.floatEntropy, c.inputs.now.Format⟩]) := by
  have hd : randInt 9 c.inputs.suffixEntropy < 9 := randInt_lt 9 _ (by norm_num)
  have hu : generationUsername caseTable c
      = "Debug" ++ decimal (randInt 9 c.inputs.suffixEntropy) := by
    unfold generationUsername
    rw [if_pos h]
  have hnot : ToLower caseTable (generationUsername caseTable c) ≠ "all" := by
    rw [hu]
    exact placeholder_not_reserved caseTable _ hd
  refine ⟨by omega, decimal_length_of_digit _ hd, hu, hnot, ?_⟩
  rw [RandomFloat0to1_of_not_reserved caseTable c db hnot, hu]

/-- C1. For a non-empty username that lower-cases neither to `all` nor to `undefined`,
`RandomFloat0to1` succeeds exactly when the fresh id is not yet a key of the table (a duplicate
key ends the process). A successful call answers 200 with an event `e` whose user is the
username as supplied and whose value is the draw, with `0 ≤ e.RNG < 1`; the database afterwards
is the previous one followed by the single row of `e`, so every earlier row is kept
unchanged. -/
theorem RandomFloat0to1_persists (caseTable : Char → Char) (c : Context) (db : Database)
    (hne : c.username.length ≠ 0) (hall : ToLower caseTable c.username ≠ "all")
    (hundef : ToLower caseTable c.username ≠ "undefined") :
    ∃ e : RNG,
      e.ID = c.inputs.uuid ∧ e.User = c.username
        ∧ e.RNG = RandomFloat64 c.inputs.floatEntropy ∧ 0 ≤ e.RNG ∧ e.RNG < 1
        ∧ e.Timestamp = c.inputs.now
        ∧ (c.inputs.uuid ∉ db.map Row.id →
            RandomFloat0to1 caseTable c db
              = .ok (c.JSON 200 (.rng e), db ++ [⟨e.ID, e.User, e.RNG, e.Timestamp.Format⟩]))
        ∧ (c.inputs.uuid ∈ db.map Row.id → RandomFloat0to1 caseTable c db = .error .fatal)
        ∧ ∀ (c1 : Context) (db1 : Database), RandomFloat0to1 caseTable c db = .ok (c1, db1) →
            c1.response = some ⟨200, .rng e⟩
              ∧ db1 = db ++ [⟨e.ID, e.User, e.RNG, e.Timestamp.Format⟩] := by
  have hu := generationUsername_of_named caseTable c hne hundef
  have hrun := RandomFloat0to1_of_not_reserved caseTable c db (by rw [hu]; exact hall)
  rw [hu] at hrun
  refine ⟨⟨c.inputs.uuid, c.username, RandomFloat64 c.inputs.floatEntropy, c.inputs.now⟩,
    rfl, rfl, rfl, RandomFloat64_nonneg _, RandomFloat64_lt_one _, rfl, ?_, ?_, ?_⟩
  · intro hfresh
    rw [hrun, if_neg hfresh]
  · intro hdup
    rw [hrun, if_pos hdup]
  · intro c1 db1 hok
    rw [hrun] at hok
    split_ifs at hok with hdup
    simp only [Except.ok.injEq, Prod.mk.injEq] at hok
    obtain ⟨hc, hdb⟩ := hok
    subst hc hdb
    exact ⟨rfl, rfl⟩

/-- C8. Writing `n` for the integer `Intn(1<<53)` draws, `0 ≤ n < 2^53` and `RandomFloat64`
returns exactly `n / 2^53`: neither the conversion to `float64` nor the division rounds. Hence
the result lies in `[0, 1)`, and it is `0` only when `n = 0`. Every `n < 2^53` is drawn for
some entropy. -/
theorem RandomFloat64_exact (entropy : Nat) :
    Intn (2 ^ 53) entropy < 2 ^ 53
      ∧ RandomFloat64 entropy = (Intn (2 ^ 53) entropy : ℚ) / 2 ^ 53
      ∧ 0 ≤ RandomFloat64 entropy ∧ RandomFloat64 entropy < 1
      ∧ (RandomFloat64 entropy = 0 ↔ Intn (2 ^ 53) entropy = 0)
      ∧ ∀ n : Nat, n < 2 ^ 53 → Intn (2 ^ 53) n = n := by
  have heq : RandomFloat64 entropy = (Intn (2 ^ 53) entropy : ℚ) / 2 ^ 53 :=
    RandomFloat64_eq entropy
  refine ⟨randInt_lt _ _ (by norm_num), heq, RandomFloat64_nonneg _, RandomFloat64_lt_one _,
    ?_, fun n hn => Nat.mod_eq_of_lt hn⟩
  rw [heq]
  constructor
  · intro h
    rcases div_eq_zero_iff.1 h with h0 | h0
    · exact_mod_cast h0
    · norm_num at h0
  · intro h
    rw [h]
    simp

/-- C7. On every route of the group other than `Ping`, a request whose `Authorization` value
differs from the configured key is answered 401 with the error body `API Key does not match`,
and the database is returned unchanged. The route's chain is the middleware followed by one
handler, and the outcome is the same whatever handler stands there, even one that would end
the process: the handler is not run. `Ping` answers 200 `Pong` for every header. -/
theorem ValidateAPIKey_rejects (configuration : Configuration) (caseTable : Char → Char)
    (req : Request) (inputs : Inputs) (db : Database) (hroute : req.route ≠ .Ping)
    (hkey : req.authorization ≠ configuration.APIKey) :
    serve configuration caseTable req inputs db
        = .ok (some ⟨401, .error ⟨"API Key does not match", inputs.now⟩⟩, db)
      ∧ (∃ handler,
          req.route.handlers configuration caseTable = [ValidateAPIKey configuration, handler]
            ∧ ∀ other : HandlerFunc,
                runChain [ValidateAPIKey configuration, other] (req.context inputs) db
                  = runChain [ValidateAPIKey configuration, handler] (req.context inputs) db)
      ∧ ∀ (authorization : String) (page count : Option String),
          serve configuration caseTable ⟨.Ping, authorization, page, count⟩ inputs db
            = .ok (some ⟨200, .text "Pong"⟩, db) := by
  obtain ⟨handler, hh⟩ := Route.handlers_protected configuration caseTable req.route hroute
  have hrun : ∀ other : HandlerFunc,
      runChain [ValidateAPIKey configuration, other] (req.context inputs) db
        = .ok ((req.context inputs).AbortWithStatusJSON 401
            (.error ⟨"API Key does not match", inputs.now⟩), db) :=
    fun other => runChain_unauthorized configuration other (req.context inputs) db rfl hkey
  refine ⟨?_, ⟨handler, hh, fun other => ?_⟩, fun authorization page count => rfl⟩
  · unfold serve
    rw [hh, hrun handler]
    rfl
  · rw [hrun other, hrun handler]

/-- C5, failing input. The table `withNulUser` is reachable and holds rows of two users: `bob`,
and the user whose name is `all`, a NUL and `x`. That name does not lower-case to `all`, so
`RandomFloat0to1` files it, and `GetUsers` lists both users. `LIKE` reads the name up to its
NUL, as `all`, and `GetAllAveragesRNG` answers with the entry of `bob` alone: the filter
drops the row of a real user. -/
theorem GetAllAveragesRNG_drops_user :
    Reachable sampleConfiguration id withNulUser
      ∧ ToLower id "all\x00x" ≠ "all"
      ∧ (∃ r ∈ withNulUser, r.username = "all\x00x")
      ∧ sqlLike "all\x00x" "all" = true
      ∧ GetUsers (contextOf "") withNulUser
        = .ok ((contextOf "").JSON 200 (.users ["all\x00x", "bob"]), withNulUser)
      ∧ GetAllAveragesRNG (contextOf "") withNulUser
        = .ok ((contextOf "").JSON 200 (.averages [⟨"bob", 1, 1 / 2⟩]), withNulUser) := by
  refine ⟨withNulUser_reachable, by decide, by decide, by decide, ?_, ?_⟩
  · unfold GetUsers
    rw [groupKeys_withNulUser]
  · unfold GetAllAveragesRNG
    rw [AverageRNG_withNulUser]
    rfl

/-- C3, failing input. The table `twoSpellings` is reachable, and in it user `bob` has two rows
of mean `3/4`. The `WHERE` clause of the lookup accepts the row of either spelling for either
name, and the lookup of `bob` answers 200 with count `1` and average `1/4`: the aggregate of
the rows of `Bob`, labelled `bob`. -/
theorem GetUserAverageRNG_other_user :
    Reachable sampleConfiguration id twoSpellings
      ∧ userAverage twoSpellings "bob" = ⟨"bob", 2, 3 / 4⟩
      ∧ sqlLike "Bob" "bob" = true ∧ sqlLike "bob" "Bob" = true
      ∧ GetUserAverageRNG id (contextOf "bob") twoSpellings
        = .ok ((contextOf "bob").JSON 200 (.average ⟨"bob", 1, 1 / 4⟩), twoSpellings) := by
  refine ⟨twoSpellings_reachable, ?_, by decide, by decide, ?_⟩
  · simp only [userAverage, rowsOf_twoSpellings_bob]
    norm_num
  · have hname : averageUsername id (contextOf "bob") = "bob" := by decide
    have hlen : likePatternTooLong "bob" = false := by decide
    unfold GetUserAverageRNG queryAverage
    rw [hname]
    dsimp only
    rw [hlen, AverageRNG_twoSpellings]
    rfl

/-- C6, failing input. On the reachable table `oneUser`, with `page=3` and
`count=9223372036854775807`, the product `count*(page-1)` wraps to `-2`, SQLite reads the
negative offset as zero, and the handler answers with the first rows of the table, although
page 3 of that size is empty. -/
theorem GetGenerationDetails_overflow :
    Reachable sampleConfiguration id oneUser
      ∧ Atoi "3" = some 3
      ∧ Atoi "9223372036854775807" = some 9223372036854775807
      ∧ wrapInt64 (9223372036854775807 * wrapInt64 (3 - 1)) = -2
      ∧ pageOf oneUser 3 9223372036854775807 = []
      ∧ GetGenerationDetails (contextOfPage "3" "9223372036854775807") oneUser
        = .ok ((contextOfPage "3" "9223372036854775807").JSON 200
            (.rngs [⟨"id-1", "bob", 1 / 2, ⟨1700000000, 0⟩⟩]), oneUser) := by
  have h3 : Atoi "3" = some 3 := by decide
  have hK : Atoi "9223372036854775807" = some 9223372036854775807 := by decide
  have hw : wrapInt64 (9223372036854775807 * wrapInt64 (3 - 1)) = -2 := by decide
  refine ⟨oneUser_reachable, h3, hK, hw, ?_, ?_⟩
  · simp [pageOf, orderByTimestampDesc, oneUser]
  · have hp : (contextOfPage "3" "9223372036854775807").page.getD "1" = "3" := rfl
    have hc : (contextOfPage "3" "9223372036854775807").count.getD "15"
        = "9223372036854775807" := rfl
    unfold GetGenerationDetails
    simp only [hp, hc, h3, hK, hw]
    rfl

/-! ## The claims at concrete inputs -/

/-- C10 at a concrete format and parameter. -/
theorem ApiErrorHandler_message_witness :
    '%' ∉ "no user '".data ∧ '%' ∉ "' here".data
      ∧ ApiErrorHandler (contextOf "") 404 ("no user '" ++ "%s" ++ "' here") ["bob"]
        = .ok ((contextOf "").AbortWithStatusJSON 404
            (.error ⟨"no user '" ++ "[" ++ "bob" ++ "]" ++ "' here", sampleInputs.now⟩)) :=
  ⟨by decide, by decide,
    (ApiErrorHandler_message (contextOf "") 404 "no user '" "' here" "bob"
      (by decide) (by decide)).1⟩

/-- C2 at the username `aLl`. -/
theorem RandomFloat0to1_reserved_witness :
    ToLower id (contextOf "aLl").username = "all"
      ∧ RandomFloat0to1 id (contextOf "aLl") oneUser
        = .ok ((contextOf "aLl").AbortWithStatusJSON 405
            (.error ⟨"The username '[" ++ "aLl" ++ "]' is reserved.", sampleInputs.now⟩),
          oneUser) :=
  ⟨by decide, RandomFloat0to1_reserved id (contextOf "aLl") oneUser (by decide)⟩

/-- C9 at the username `Undefined`. -/
theorem RandomFloat0to1_placeholder_witness :
    ToLower id (contextOf "Undefined").username = "undefined"
      ∧ generationUsername id (contextOf "Undefined") = "Debug" ++ decimal (randInt 9 17)
      ∧ ToLower id (generationUsername id (contextOf "Undefined")) ≠ "all" :=
  have h := RandomFloat0to1_placeholder id (contextOf "Undefined") oneUser
    (Or.inr (by decide))
  ⟨by decide, h.2.2.1, h.2.2.2.1⟩

/-- C1 at the username `alice` on a table with one row. -/
theorem RandomFloat0to1_persists_witness :
    (contextOf "alice").username.length ≠ 0
      ∧ ToLower id (contextOf "alice").username ≠ "all"
      ∧ ToLower id (contextOf "alice").username ≠ "undefined"
      ∧ ∃ e : RNG, e.User = "alice" ∧ 0 ≤ e.RNG ∧ e.RNG < 1
          ∧ RandomFloat0to1 id (contextOf "alice") oneUser
            = .ok ((contextOf "alice").JSON 200 (.rng e),
                oneUser ++ [⟨e.ID, e.User, e.RNG, e.Timestamp.Format⟩]) := by
  obtain ⟨e, -, hu, -, h0, h1, -, hok, -, -⟩ :=
    RandomFloat0to1_persists id (contextOf "alice") oneUser (by decide) (by decide) (by decide)
  exact ⟨by decide, by decide, by decide, e, hu, h0, h1, hok (by decide)⟩

/-- C8 at the draw `3`. -/
theorem RandomFloat64_exact_witness :
    RandomFloat64 3 = (Intn (2 ^ 53) 3 : ℚ) / 2 ^ 53 ∧ RandomFloat64 3 < 1 :=
  ⟨(RandomFloat64_exact 3).2.1, (RandomFloat64_exact 3).2.2.2.1⟩

/-- C7 at a request with the key `guess`. -/
theorem ValidateAPIKey_rejects_witness :
    (⟨.RandomFloat0to1Username "alice", "guess", none, none⟩ : Request).route ≠ .Ping
      ∧ "guess" ≠ sampleConfiguration.APIKey
      ∧ serve sampleConfiguration id ⟨.RandomFloat0to1Username "alice", "guess", none, none⟩
          sampleInputs oneUser
        = .ok (some ⟨401, .error ⟨"API Key does not match", sampleInputs.now⟩⟩, oneUser) :=
  ⟨by decide, by decide,
    (ValidateAPIKey_rejects sampleConfiguration id
      ⟨.RandomFloat0to1Username "alice", "guess", none, none⟩ sampleInputs oneUser
      (by decide) (by decide)).1⟩

end RNGBackend
